import Mathlib

/- Verification development for the sidetopics correlated topic model
   (sidetopics/model/ctm.py, the Bouchard product-of-sigmoids variant).

   The Python code is embedded shallowly over exact rationals.  Matrices
   are total functions from row/column indices to rationals, with the
   relevant dimensions carried explicitly; sums run over the explicit
   index ranges.  Stateful numpy code (in-place array updates) is
   rendered as explicit state passing.  The external numeric primitives
   consumed by the core (numpy/scipy/sklearn: exp, log, sqrt, matrix
   inverse, determinant, OAS covariance estimation, the random source,
   and the NaN/Inf anomaly detector) are abstracted as a record of
   functions, since the specification treats them as external
   collaborators with documented contracts.  Fallible operations return
   an Except value. -/

namespace CTM

/-- Sum of `f i` for `i` ranging over `0, ..., n-1` (the numpy sum over an
axis of length `n`). -/
def fsum (n : ℕ) (f : ℕ → ℚ) : ℚ := ∑ i ∈ Finset.range n, f i

/-- Maximum entry of a length-`K` row (numpy `row.max()`); the fold is
seeded with the first entry, matching numpy's max over a nonempty row. -/
def rowMax (K : ℕ) (row : ℕ → ℚ) : ℚ :=
  (List.range K).foldl (fun a k => max a (row k)) (row 0)

/-- Modelled from the spec: the external numeric primitives consumed, not
implemented, by the core (spec section 2 "NumericPrimitives" and section 6).
These cover numpy/scipy/sklearn calls whose sources are outside the core:
`np.exp`, `np.log`, `np.sqrt`, `scipy.linalg.inv`, `scipy.linalg.det`,
`sklearn.covariance.oas`, the `numpy.random` source used at state
construction, the float constants `log(2*pi)` and `log(2*pi*e)`, and the
`np.isnan`/`np.isinf` anomaly detector (exact rationals have no NaN or Inf,
so detection is abstracted as a predicate supplied with the primitives). -/
structure Prims where
  qexp : ℚ → ℚ
  qlog : ℚ → ℚ
  qsqrt : ℚ → ℚ
  matInv : ℕ → (ℕ → ℕ → ℚ) → ℕ → ℕ → ℚ
  matDet : ℕ → (ℕ → ℕ → ℚ) → ℚ
  oasCov : ℕ → ℕ → (ℕ → ℕ → ℚ) → ℕ → ℕ → ℚ
  rand : ℕ → ℕ → ℚ
  isBad : ℚ → Bool
  ln2pi : ℚ
  ln2pie : ℚ

/-- Modelled from the spec: the external `Dataset`/`DataSet` collaborator
(spec section 6): a `D` by `T` document-term matrix `words` with derived
document lengths and total word count.  Only `words` is used by this model. -/
structure Dataset where
  D : ℕ
  T : ℕ
  words : ℕ → ℕ → ℚ

/-- Row sums of `words`: per-document lengths (`W.sum(axis=1)`). -/
def Dataset.docLens (ds : Dataset) : ℕ → ℚ :=
  fun d => fsum ds.T fun t => ds.words d t

/-- Total word count of the dataset (`W.sum()`). -/
def Dataset.word_count (ds : Dataset) : ℚ :=
  fsum ds.D fun d => ds.docLens d

/-- `ModelState` of ctm.py: global parameters `K`, `topicMean`, `sigT`,
`vocab`, `vocabPrior`.  The vocabulary column count `T` is carried
explicitly (in numpy it is `vocab.shape[1]`); the `dtype` and `name`
fields are float-precision/bookkeeping and are not modelled. -/
structure ModelState where
  K : ℕ
  T : ℕ
  topicMean : ℕ → ℚ
  sigT : ℕ → ℕ → ℚ
  vocab : ℕ → ℕ → ℚ
  vocabPrior : ℚ

/-- `QueryState` of ctm.py: per-document local parameters
`means, expMeans, varcs, lxi, s, docLens`. -/
structure QueryState where
  means : ℕ → ℕ → ℚ
  expMeans : ℕ → ℕ → ℚ
  varcs : ℕ → ℕ → ℚ
  lxi : ℕ → ℕ → ℚ
  s : ℕ → ℚ
  docLens : ℕ → ℚ

/-- `TrainPlan` of ctm.py. -/
structure TrainPlan where
  iterations : ℕ
  epsilon : ℚ
  logFrequency : ℕ
  fastButInaccurate : Bool
  debug : Bool

/-- Modelled from the spec: `normalizerows_ip` from sidetopics/util
(array_utils, not under src): row-wise normalization, dividing each entry
by its row sum. -/
def normalizerows_ip (C : ℕ) (m : ℕ → ℕ → ℚ) : ℕ → ℕ → ℚ :=
  fun r c => m r c / fsum C fun j => m r j

/-- Modelled from the spec: `rowwise_softmax` from sidetopics/util
(sigmoid_utils, not under src): row-wise softmax, numerically shifted by
the per-row maximum before exponentiation. -/
def rowwise_softmax (p : Prims) (K : ℕ) (m : ℕ → ℕ → ℚ) : ℕ → ℕ → ℚ :=
  fun d k =>
    p.qexp (m d k - rowMax K (m d)) /
      fsum K fun j => p.qexp (m d j - rowMax K (m d))

/-- Pointwise content of `sparseScalarQuotientOfDot` where the dimensions
agree: at each non-zero position `(d,t)` of `W`, the quotient of `W d t`
by the reconstruction `(X.dot(Y)) d t`; structural zeros of `W` propagate
as zero and are never divided. -/
def ssqodFun (K : ℕ) (W X Y : ℕ → ℕ → ℚ) : ℕ → ℕ → ℚ :=
  fun d t => if W d t = 0 then 0 else W d t / fsum K fun k => X d k * Y k t

/-- Error message raised on a column-count mismatch inside the sparse
quotient primitive (numpy raises a shape error from the dot product). -/
def dimMismatchMsg : String :=
  "DimensionMismatch: words and vocab column counts differ"

/-- Modelled from the spec: `sparseScalarQuotientOfDot` from
sidetopics/util (sparse_elementwise, not under src): elementwise quotient
of the sparse matrix `W` (`Tw` columns) by the dense product `X.dot(Y)`
(`Y` has `Tv` columns), evaluated only on the non-zero positions of `W`.
Mismatched column counts make the underlying numpy dot/assignment raise,
modelled as an error value. -/
def sparseScalarQuotientOfDot (K Tw Tv : ℕ) (W X Y : ℕ → ℕ → ℚ) :
    Except String (ℕ → ℕ → ℚ) :=
  if Tw = Tv then .ok (ssqodFun K W X Y) else .error dimMismatchMsg

/-- Modelled from the spec: `sparseScalarProductOfSafeLnDot` from
sidetopics/util (sparse_elementwise, not under src): at each non-zero
position `(d,t)` of `W`, the product of `W d t` with the (safe) log of
`(X.dot(Y)) d t`; zero entries of `W` contribute nothing, so the safe log
is never taken at a structural zero. -/
def sparseScalarProductOfSafeLnDot (p : Prims) (K : ℕ) (W X Y : ℕ → ℕ → ℚ) :
    ℕ → ℕ → ℚ :=
  fun d t =>
    if W d t = 0 then 0 else W d t * p.qlog (fsum K fun k => X d k * Y k t)

/-- Sum of the stored data of a sparse `D` by `T` result (`np.sum(M.data)`);
positions outside the support hold zero and contribute nothing. -/
def sparseDataSum (D T : ℕ) (M : ℕ → ℕ → ℚ) : ℚ :=
  fsum D fun d => fsum T fun t => M d t

/-- Modelled from the spec: `scaledSumOfLnOnePlusExp` from sidetopics/util
(sparse_elementwise, not under src): the docLens-scaled sum of
`log(1 + exp(xi))` over documents and topics (the safe log1p-exp
primitive of spec section 6). -/
def scaledSumOfLnOnePlusExp (p : Prims) (D K : ℕ) (n : ℕ → ℚ)
    (xi : ℕ → ℕ → ℚ) : ℚ :=
  fsum D fun d => n d * fsum K fun k => p.qlog (1 + p.qexp (xi d k))

/-- Modelled from the spec: `perplexity_from_like` from
sidetopics/model/evals.py (not under src): `exp(-log_likelihood / tokens)`
(spec sections 4.3 and the glossary). -/
def perplexity_from_like (p : Prims) (like tokens : ℚ) : ℚ :=
  p.qexp (-(like / tokens))

/-- `_deriveXi` of ctm.py: `sqrt(means^2 - 2*means*s + s^2 + varcs^2)`. -/
def deriveXi (p : Prims) (means varcs : ℕ → ℕ → ℚ) (s : ℕ → ℚ) :
    ℕ → ℕ → ℚ :=
  fun d k =>
    p.qsqrt (means d k ^ 2 - 2 * means d k * s d + s d ^ 2 + varcs d k ^ 2)

/-- `negJakkola` of ctm.py: `0.5/x * (1/(1+exp(-x)) - 0.5)`. -/
def negJakkola (p : Prims) (x : ℚ) : ℚ :=
  (1 / 2) / x * (1 / (1 + p.qexp (-x)) - 1 / 2)

/-- `negJakkolaOfDerivedXi` of ctm.py (full-matrix form, `d = None`):
the negated Jakkola expression at the derived xi.  The Python body also
unconditionally scans its `means`, `s` and `varcs` arguments for
NaN/Inf and prints a report for each anomalous one (lines 494-507);
that diagnostic output is modelled by `jakkolaWarnings` where the
training loop reaches this function. -/
def negJakkolaOfDerivedXi (p : Prims) (means varcs : ℕ → ℕ → ℚ)
    (s : ℕ → ℚ) : ℕ → ℕ → ℚ :=
  fun d k => negJakkola p (deriveXi p means varcs s d k)

/-- `log_likelihood` of ctm.py: the sum of the stored data of
`sparseScalarProductOfSafeLnDot(words, rowwise_softmax(means), vocab)`. -/
def log_likelihood (p : Prims) (data : Dataset) (model : ModelState)
    (query : QueryState) : ℚ :=
  sparseDataSum data.D data.T
    (sparseScalarProductOfSafeLnDot p model.K data.words
      (rowwise_softmax p model.K query.means) model.vocab)

/-- `var_bound` of ctm.py, lines 407-457.  The returned pair is the bound
value together with the new contents of the `expMeans` buffer: the Python
body executes `np.exp(means - means.max(axis=1)[:,None], out=expMeans)`,
writing into the passed-in query state's `expMeans` array in place and
never restoring it, so the buffer's post-call contents are part of the
observable behaviour and are returned explicitly here. -/
def var_bound (p : Prims) (data : Dataset) (model : ModelState)
    (query : QueryState) : ℚ × (ℕ → ℕ → ℚ) :=
  let W := data.words
  let D := data.D
  let K := model.K
  let n := query.docLens
  let xi := deriveXi p query.means query.varcs query.s
  let isigT := p.matInv K model.sigT
  let b1 := -(((D : ℚ) * (K : ℚ)) / 2 * p.ln2pi)
  let b2 := -((D : ℚ) / 2 * p.matDet K model.sigT)
  let diff := fun d k => query.means d k - model.topicMean k
  let b3 := -(1 / 2 * fsum D fun d => fsum K fun k =>
      (fsum K fun j => diff d j * isigT j k) * diff d k)
  let b4 := -(1 / 2 * fsum D fun d => fsum K fun k =>
      query.varcs d k * isigT k k)
  let b5 := 1 / 2 * (D : ℚ) * (K : ℚ) * p.ln2pie +
      1 / 2 * fsum D fun d => fsum K fun k => p.qlog (query.varcs d k)
  let b6 := -(fsum D fun d => fsum K fun k =>
      (query.means d k * query.means d k + query.varcs d k) * n d *
        query.lxi d k)
  let b7 := fsum D fun d => fsum K fun k =>
      query.means d k * 2 * n d * query.s d * query.lxi d k
  let b8 := fsum D fun d => fsum K fun k =>
      query.means d k * (-(1 / 2)) * n d
  let expOut := fun d k => p.qexp (query.means d k - rowMax K (query.means d))
  let b9 := sparseDataSum D data.T
      (sparseScalarProductOfSafeLnDot p K W expOut model.vocab)
  let b10 := -(fsum D fun d => fsum K fun k =>
      n d * query.lxi d k * (query.s d * query.s d - xi d k * xi d k))
  let b11 := fsum D fun d => fsum K fun k => 1 / 2 * n d * (query.s d + xi d k)
  let b12 := -(scaledSumOfLnOnePlusExp p D K n xi)
  let b13 := -(fsum D fun d => query.s d * n d)
  (b1 + b2 + b3 + b4 + b5 + b6 + b7 + b8 + b9 + b10 + b11 + b12 + b13, expOut)

/-- `USE_NIW_PRIOR` constant of ctm.py (line 41): `True`. -/
def USE_NIW_PRIOR : Bool := true

/-- The topicMean update of the M-step (ctm.py lines 211-213):
`means.sum(axis=0) / (D + kappa)` under the NIW prior (with
`kappa = K + 2`, line 199), else the plain mean. -/
def topicMeanUpdate (D K : ℕ) (means : ℕ → ℕ → ℚ) : ℕ → ℚ :=
  if USE_NIW_PRIOR then
    fun k => (fsum D fun d => means d k) / ((D : ℚ) + ((K : ℚ) + 2))
  else
    fun k => (fsum D fun d => means d k) / (D : ℚ)

/-- The full (pre-truncation) sigT of the M-step (ctm.py lines 219-227):
OAS covariance of `means`, plus the mean of `varcs` on the diagonal, plus
(NIW prior) the `priorSigt_diag` value `0.1` on the diagonal and the
scaled outer product of the topic mean.  (The `astype(dtype)` cast is
float precision only and is not modelled.) -/
def sigTFull (p : Prims) (D K : ℕ) (means varcs : ℕ → ℕ → ℚ)
    (topicMean : ℕ → ℚ) : ℕ → ℕ → ℚ :=
  let kappa : ℚ := (K : ℚ) + 2
  fun i j =>
    p.oasCov D K means i j +
      (if i = j then (fsum D fun d => varcs d i) / (D : ℚ) else 0) +
      (if USE_NIW_PRIOR then
        (if i = j then (1 : ℚ) / 10 else 0) +
          kappa * (D : ℚ) / (kappa + (D : ℚ)) * (topicMean i * topicMean j)
      else 0)

/-- The precision-matrix step of the M-step (ctm.py lines 230-236),
returning the pair `(sigT, isigT)`.  The Python condition is literally
`if True or diagonalPriorCov:`, so the diagonal truncation branch is taken
for every value of the `fastButInaccurate` flag and the `la.inv` branch is
dead code. -/
def sigTUpdate (p : Prims) (D K : ℕ) (fast : Bool) (means varcs : ℕ → ℕ → ℚ)
    (topicMean : ℕ → ℚ) : (ℕ → ℕ → ℚ) × (ℕ → ℕ → ℚ) :=
  let m := sigTFull p D K means varcs topicMean
  if true || fast then
    (fun i j => if i = j then m i i else 0,
     fun i j => if i = j then 1 / m i i else 0)
  else
    (m, p.matInv K m)

/-- The vocabulary update of the M-step (ctm.py lines 247-249):
`vocab *= (R.T.dot(expMeans)).T; vocab += vocabPrior;
vocab = normalizerows_ip(vocab)`. -/
def vocabUpdate (T D : ℕ) (vocab R expMeans : ℕ → ℕ → ℚ) (prior : ℚ) :
    ℕ → ℕ → ℚ :=
  normalizerows_ip T
    (fun k t => vocab k t * (fsum D fun d => R d t * expMeans d k) + prior)

/-- The variance update shared by the train E-step (ctm.py line 262) and
the query loop (ctm.py line 361):
`varcs = 1 / (docLens[:,None] * lxi + isigT.flat[::K+1])`. -/
def varcsUpdate (n : ℕ → ℚ) (lxi isigT : ℕ → ℕ → ℚ) : ℕ → ℕ → ℚ :=
  fun d k => 1 / (n d * lxi d k + isigT k k)

/-- The `s` update of the query loop (ctm.py line 371):
`s = (sum(lxi * means, axis=1) + 0.25 * K - 0.5) / sum(lxi, axis=1)`. -/
def sBouchardUpdate (K : ℕ) (lxi means : ℕ → ℕ → ℚ) : ℕ → ℚ :=
  fun d =>
    ((fsum K fun k => lxi d k * means d k) + (K : ℚ) / 4 - 1 / 2) /
      fsum K fun k => lxi d k

/-- The mutable state threaded through the training loop of ctm.py:
the global parameters being re-estimated plus the per-document locals.
(`isigT` is recomputed from `sigT` every iteration before any use, so it
is not part of the threaded state.) -/
structure TState where
  topicMean : ℕ → ℚ
  sigT : ℕ → ℕ → ℚ
  vocab : ℕ → ℕ → ℚ
  means : ℕ → ℕ → ℚ
  expMeans : ℕ → ℕ → ℚ
  varcs : ℕ → ℕ → ℚ
  lxi : ℕ → ℕ → ℚ
  s : ℕ → ℚ

/-- One training iteration of ctm.py (loop body, lines 204-283, excluding
the logging/convergence block): M-step (topicMean, sigT/isigT, vocab) then
E-step (varcs, means with re-centering by the first column, lxi).  The `s`
update (line 282) is commented out in the source, so `s` is left
untouched.  The result is the state when the column counts of `words` and
`vocab` agree; `trainStep` wraps it with the failure case. -/
def trainStepOk (p : Prims) (data : Dataset) (K T : ℕ) (vocabPrior : ℚ)
    (n : ℕ → ℚ) (fast : Bool) (st : TState) : TState :=
  let D := data.D
  let topicMean1 := topicMeanUpdate D K st.means
  let sp := sigTUpdate p D K fast st.means st.varcs topicMean1
  let expMeans1 := fun d k => p.qexp (st.means d k - rowMax K (st.means d))
  let R1 := ssqodFun K data.words expMeans1 st.vocab
  let vocab1 := vocabUpdate T D st.vocab R1 expMeans1 vocabPrior
  let R2 := ssqodFun K data.words expMeans1 vocab1
  let S := fun d k => expMeans1 d k * fsum data.T fun t => R2 d t * vocab1 k t
  let varcs1 := varcsUpdate n st.lxi sp.2
  let vMat := fun d k => (st.s d * st.lxi d k - 1 / 2) * n d + S d k
  let rhsMat := fun d k => vMat d k + fsum K fun j => sp.2 k j * topicMean1 j
  let means0 := fun d k => varcs1 d k * rhsMat d k
  let means1 := fun d k => means0 d k - means0 d 0
  let lxi1 := fun d k => 2 * negJakkolaOfDerivedXi p means1 varcs1 st.s d k
  ⟨topicMean1, sp.1, vocab1, means1, expMeans1, varcs1, lxi1, st.s⟩

/-- One training iteration of ctm.py including the dimension-sensitive
sparse quotient calls (lines 243 and 251), which fail when the column
counts of `words` and `vocab` differ. -/
def trainStep (p : Prims) (data : Dataset) (K T : ℕ) (vocabPrior : ℚ)
    (n : ℕ → ℚ) (fast : Bool) (st : TState) : Except String TState :=
  let D := data.D
  let topicMean1 := topicMeanUpdate D K st.means
  let sp := sigTUpdate p D K fast st.means st.varcs topicMean1
  let expMeans1 := fun d k => p.qexp (st.means d k - rowMax K (st.means d))
  match sparseScalarQuotientOfDot K data.T T data.words expMeans1 st.vocab with
  | .error e => .error e
  | .ok R1 =>
    let vocab1 := vocabUpdate T D st.vocab R1 expMeans1 vocabPrior
    match sparseScalarQuotientOfDot K data.T T data.words expMeans1 vocab1 with
    | .error e => .error e
    | .ok R2 =>
      let S := fun d k =>
        expMeans1 d k * fsum data.T fun t => R2 d t * vocab1 k t
      let varcs1 := varcsUpdate n st.lxi sp.2
      let vMat := fun d k => (st.s d * st.lxi d k - 1 / 2) * n d + S d k
      let rhsMat := fun d k =>
        vMat d k + fsum K fun j => sp.2 k j * topicMean1 j
      let means0 := fun d k => varcs1 d k * rhsMat d k
      let means1 := fun d k => means0 d k - means0 d 0
      let lxi1 := fun d k => 2 * negJakkolaOfDerivedXi p means1 varcs1 st.s d k
      .ok ⟨topicMean1, sp.1, vocab1, means1, expMeans1, varcs1, lxi1, st.s⟩

/-- Warning text for a NaN/Inf hit in an updated variable (the
`printStderr` output of `_debug_with_bound` in ctm.py). -/
def nanInfWarning : String := "WARNING: variable contains NaNs or INFs"

/-- Warning text for a bound decrease between consecutive checkpoints
(ctm.py line 296). -/
def boundDegradationMsg : String := "ERROR: bound degradation"

/-- True when some entry of the `R` by `C` matrix trips the anomaly
detector (`np.isnan(X).any() or np.isinf(X).any()`). -/
def anyBad2 (p : Prims) (R C : ℕ) (m : ℕ → ℕ → ℚ) : Bool :=
  (List.range R).any fun r => (List.range C).any fun c => p.isBad (m r c)

/-- True when some entry of the length-`n` vector trips the anomaly
detector. -/
def anyBad1 (p : Prims) (n : ℕ) (v : ℕ → ℚ) : Bool :=
  (List.range n).any fun i => p.isBad (v i)

/-- The report printed by `negJakkolaOfDerivedXi` when `errorMsg(means)`
fires (ctm.py lines 494-497); the Python message distinguishes NaNs from
INFs, which the single abstract detector does not. -/
def meansAnomalyMsg : String := "Means Matrix has NaNs or INFs"

/-- The report printed by `negJakkolaOfDerivedXi` when `errorMsg(s)`
fires (ctm.py lines 499-502). -/
def sAnomalyMsg : String := "s Matrix has NaNs or INFs"

/-- The report printed by `negJakkolaOfDerivedXi` when `errorMsg(varcs)`
fires; the source prints this report under the label `lxi` (a copy-paste
quirk at ctm.py lines 504-507), but the scanned matrix is `varcs`. -/
def varcsAnomalyMsg : String := "lxi Matrix has NaNs or INFs"

/-- The unconditional diagnostic reports of `negJakkolaOfDerivedXi`
(ctm.py lines 494-507): every call scans its `means`, `s` and `varcs`
arguments with `errorMsg` (`np.isnan(...).any()`/`np.isinf(...).any()`)
and prints a report for each anomalous one, regardless of any debug
flag.  The training loop reaches this scan once per iteration through
the `lxi` update at ctm.py line 276, with the freshly updated means and
variances and the current offsets. -/
def jakkolaWarnings (p : Prims) (D K : ℕ) (means varcs : ℕ → ℕ → ℚ)
    (s : ℕ → ℚ) : List String :=
  (if anyBad2 p D K means then [meansAnomalyMsg] else []) ++
  (if anyBad1 p D s then [sAnomalyMsg] else []) ++
  (if anyBad2 p D K varcs then [varcsAnomalyMsg] else [])

/-- The debug-gated diagnostic warnings emitted by the per-update
`debugFn` calls in one training iteration of ctm.py.  `debugFn` is
`_debug_with_bound` only when the plan's debug flag is set (line 190),
else `_debug_with_nothing`; each of the seven call sites scans the
just-updated variable, whose value at that point equals the
corresponding field of the post-step state.  The bound-printing of
`_debug_with_bound` is diagnostic I/O with no effect on the training
state and is not modelled.  The unconditional reporting path through
`negJakkolaOfDerivedXi` is modelled separately by `jakkolaWarnings`. -/
def anomalyWarnings (p : Prims) (D K T : ℕ) (debug : Bool) (st : TState) :
    List String :=
  if debug then
    (if anyBad1 p K st.topicMean then [nanInfWarning] else []) ++
    (if anyBad2 p K K st.sigT then [nanInfWarning] else []) ++
    (if anyBad2 p K T st.vocab then [nanInfWarning] else []) ++
    (if anyBad2 p D K st.varcs then [nanInfWarning] else []) ++
    (if anyBad2 p D K st.means then [nanInfWarning] else []) ++
    (if anyBad2 p D K st.lxi then [nanInfWarning] else []) ++
    (if anyBad1 p D st.s then [nanInfWarning] else [])
  else []

/-- The value returned by `train`: the model, the query state, the three
parallel trace sequences `(boundIters, boundValues, likelyValues)`, and
the diagnostic warnings printed along the way (stdout/stderr output,
which is not part of the Python return value). -/
structure TrainResult where
  model : ModelState
  query : QueryState
  iters : List ℕ
  bounds : List ℚ
  likes : List ℚ
  warnings : List String

/-- The Python-visible part of a training result: everything except the
printed diagnostics. -/
def TrainResult.core (r : TrainResult) :
    ModelState × QueryState × List ℕ × List ℚ × List ℚ :=
  (r.model, r.query, r.iters, r.bounds, r.likes)

/-- `ModelState(K, topicMean, sigT, vocab, vocabPrior, dtype, MODEL_NAME)`
snapshot from the loop state. -/
def mkModel (K T : ℕ) (st : TState) (vp : ℚ) : ModelState :=
  ⟨K, T, st.topicMean, st.sigT, st.vocab, vp⟩

/-- `QueryState(means, expMeans, varcs, lxi, s, n)` snapshot from the loop
state. -/
def mkQuery (st : TState) (n : ℕ → ℚ) : QueryState :=
  ⟨st.means, st.expMeans, st.varcs, st.lxi, st.s, n⟩

/-- The training loop of ctm.py (lines 204-311).  Arguments after the plan:
remaining iterations, the current iteration index `itr`, the threaded
state, the accumulated `boundIters`/`boundValues`/`likelyValues` traces
(lists play the role of the preallocated arrays indexed by `bvIdx`; the
`clamp` of the early return truncates those arrays to the filled prefix,
which the lists are by construction), and the accumulated warnings.
Every `logFrequency` iterations the loop snapshots the states, evaluates
the bound and likelihood (the `var_bound` call overwrites the `expMeans`
buffer shared with the snapshot and the threaded state), reports a bound
decrease, and returns early only when at least two checkpoints were
already recorded (`bvIdx > 1`), the iteration index is at least 30, and
the perplexity improvement since the previous checkpoint is below 1. -/
def trainLoop (p : Prims) (data : Dataset) (K T : ℕ) (vp : ℚ) (n : ℕ → ℚ)
    (plan : TrainPlan) :
    ℕ → ℕ → TState → List ℕ → List ℚ → List ℚ → List String →
      Except String TrainResult
  | 0, _, st, iters, bounds, likes, ws =>
      .ok ⟨mkModel K T st vp, mkQuery st n, iters, bounds, likes, ws⟩
  | r + 1, itr, st, iters, bounds, likes, ws =>
      match trainStep p data K T vp n plan.fastButInaccurate st with
      | .error e => .error e
      | .ok st1 =>
        let ws1 := ws ++ jakkolaWarnings p data.D K st1.means st1.varcs st1.s
          ++ anomalyWarnings p data.D K T plan.debug st1
        if 0 < plan.logFrequency ∧ itr % plan.logFrequency = 0 then
          let model := mkModel K T st1 vp
          let vb := var_bound p data model (mkQuery st1 n)
          let query := { mkQuery st1 n with expMeans := vb.2 }
          let st2 := { st1 with expMeans := vb.2 }
          let like := log_likelihood p data model (mkQuery st1 n)
          let perp := perplexity_from_like p like (fsum data.D n)
          let ws2 := ws1 ++
            (if bounds ≠ [] ∧ vb.1 < bounds.getLastD 0 then
              [boundDegradationMsg] else [])
          let iters1 := iters ++ [itr]
          let bounds1 := bounds ++ [vb.1]
          let likes1 := likes ++ [like]
          if 1 < likes.length ∧ 30 ≤ itr ∧
              perplexity_from_like p (likes.getLastD 0) (fsum data.D n) -
                perp < 1 then
            .ok ⟨model, query, iters1, bounds1, likes1, ws2⟩
          else
            trainLoop p data K T vp n plan r (itr + 1) st2
              iters1 bounds1 likes1 ws2
        else
          trainLoop p data K T vp n plan r (itr + 1) st1 iters bounds likes ws1

/-- The initial loop state of `train` (ctm.py lines 176-201): the unpacked
model and query fields, with the passed-in query state's `s` zeroed in
place (`s.fill(0)`, line 196) and the local `expMeans` rebound to a copy
of `means` (line 201).  The `la.inv(sigT)` at line 193 initializes `isigT`,
but every iteration overwrites `isigT` before reading it, so the value is
dead and not part of the state. -/
def trainInit (model : ModelState) (qs : QueryState) : TState :=
  ⟨model.topicMean, model.sigT, model.vocab, qs.means, qs.means, qs.varcs,
    qs.lxi, fun _ => 0⟩

/-- `train` of ctm.py (lines 158-311). -/
def train (p : Prims) (data : Dataset) (model : ModelState)
    (qs : QueryState) (plan : TrainPlan) : Except String TrainResult :=
  trainLoop p data model.K model.T model.vocabPrior qs.docLens plan
    plan.iterations 0 (trainInit model qs) [] [] [] []

/-- Error message of the `assert` in `newQueryState` (ctm.py line 133);
the Python message interpolates the two column counts. -/
def dimMismatchQSMsg : String :=
  "DimensionMismatch: the number of terms in the document-term matrix differs from the vocabulary"

/-- `newQueryState` of ctm.py (lines 116-146): asserts that the
document-term matrix and `vocab` have the same column count before
building anything, then draws a random `D` by `2K` row-normalized base
whose left half is `means` and right half is `expMeans`, with unit
variances, zero offsets, and `lxi` from the negated Jakkola expression. -/
def newQueryState (p : Prims) (data : Dataset) (model : ModelState) :
    Except String QueryState :=
  if data.T = model.T then
    let K := model.K
    let base := normalizerows_ip (2 * K) p.rand
    let means := fun d k => base d k
    let expMeans := fun d k => base d (K + k)
    let varcs := fun _ _ => (1 : ℚ)
    let s := fun _ => (0 : ℚ)
    .ok ⟨means, expMeans, varcs, negJakkolaOfDerivedXi p means varcs s, s,
      data.docLens⟩
  else .error dimMismatchQSMsg

/-- The per-document local state iterated by `query` of ctm.py. -/
structure QLocal where
  means : ℕ → ℕ → ℚ
  varcs : ℕ → ℕ → ℚ
  lxi : ℕ → ℕ → ℚ
  s : ℕ → ℚ

/-- One iteration of the query loop of ctm.py (lines 348-372): means from
the per-document linear solve against `isigT + diag(n_d * lxi_d)`, then
variances, then `lxi`, then the closed-form `s` update (which, unlike in
`train`, is live code). -/
def queryStep (p : Prims) (K : ℕ) (topicMean : ℕ → ℚ)
    (isigT S : ℕ → ℕ → ℚ) (n : ℕ → ℚ) (st : QLocal) : QLocal :=
  let vMat := fun d k => (st.s d * st.lxi d k - 1 / 2) * n d + S d k
  let rhsMat := fun d k => vMat d k + fsum K fun j => isigT k j * topicMean j
  let means1 := fun d k =>
    fsum K fun j =>
      p.matInv K (fun a b => isigT a b + if a = b then n d * st.lxi d a else 0)
          k j *
        rhsMat d j
  let varcs1 := varcsUpdate n st.lxi isigT
  let lxi1 := fun d k => 2 * negJakkolaOfDerivedXi p means1 varcs1 st.s d k
  ⟨means1, varcs1, lxi1, sBouchardUpdate K lxi1 means1⟩

/-- The query loop of ctm.py (lines 347-378): iterate `queryStep`,
breaking out once `itr > 20` and the perplexity improvement drops below 1.
The perplexity here is computed against `dataset.word_count` (line 375),
unlike the training loop.  The query state passed to `log_likelihood`
carries a dummy `expMeans`, which `log_likelihood` never reads. -/
def queryLoop (p : Prims) (data : Dataset) (model : ModelState)
    (isigT S : ℕ → ℕ → ℚ) (n : ℕ → ℚ) :
    ℕ → ℕ → ℚ → QLocal → QLocal
  | 0, _, _, st => st
  | r + 1, itr, lastPerp, st =>
      let st1 := queryStep p model.K model.topicMean isigT S n st
      let like := log_likelihood p data model
        ⟨st1.means, fun _ _ => 0, st1.varcs, st1.lxi, st1.s, n⟩
      let perp := perplexity_from_like p like data.word_count
      if 20 < itr ∧ lastPerp - perp < 1 then st1
      else queryLoop p data model isigT S n r (itr + 1) perp st1

/-- `query` of ctm.py (lines 314-380): fixes `isigT = la.inv(sigT)`,
overwrites the `expMeans` buffer with the exponentiated shifted means,
computes the expected-assignment matrix `S` once, iterates the query
loop, and returns the untouched model together with a query state built
from the final iteration's locals (the `expMeans` field holds the
pre-loop buffer contents, which the loop never rewrites). -/
def query (p : Prims) (data : Dataset) (model : ModelState)
    (qs : QueryState) (plan : TrainPlan) :
    Except String (ModelState × QueryState) :=
  match sparseScalarQuotientOfDot model.K data.T model.T data.words
      (fun d k => p.qexp (qs.means d k - rowMax model.K (qs.means d)))
      model.vocab with
  | .error e => .error e
  | .ok R =>
    let isigT := p.matInv model.K model.sigT
    let expMeans1 := fun d k =>
      p.qexp (qs.means d k - rowMax model.K (qs.means d))
    let S := fun d k =>
      expMeans1 d k * fsum data.T fun t => R d t * model.vocab k t
    let fin := queryLoop p data model isigT S qs.docLens plan.iterations 0
      ((10 : ℚ) ^ 300) ⟨qs.means, qs.varcs, qs.lxi, qs.s⟩
    .ok (model, ⟨fin.means, expMeans1, fin.varcs, fin.lxi, fin.s, qs.docLens⟩)

/-- The checkpoint bound evaluation of the training loop: `var_bound` on
the snapshot states (value and mutated `expMeans` buffer). -/
def ckVb (p : Prims) (data : Dataset) (K T : ℕ) (vp : ℚ) (n : ℕ → ℚ)
    (st1 : TState) : ℚ × (ℕ → ℕ → ℚ) :=
  var_bound p data (mkModel K T st1 vp) (mkQuery st1 n)

/-- The checkpoint likelihood evaluation of the training loop. -/
def ckLike (p : Prims) (data : Dataset) (K T : ℕ) (vp : ℚ) (n : ℕ → ℚ)
    (st1 : TState) : ℚ :=
  log_likelihood p data (mkModel K T st1 vp) (mkQuery st1 n)

/-- The early-stopping condition evaluated at a logging checkpoint of the
training loop (ctm.py lines 300-302): at least two checkpoints already
recorded (`bvIdx > 1`), iteration index at least 30, and perplexity
improvement since the previous checkpoint below 1. -/
def ckStop (p : Prims) (data : Dataset) (K T : ℕ) (vp : ℚ) (n : ℕ → ℚ)
    (itr : ℕ) (likes : List ℚ) (st1 : TState) : Prop :=
  1 < likes.length ∧ 30 ≤ itr ∧
    perplexity_from_like p (likes.getLastD 0) (fsum data.D n) -
      perplexity_from_like p (ckLike p data K T vp n st1) (fsum data.D n) < 1

/-- The state threaded onward after a checkpoint: the loop state with the
`expMeans` buffer overwritten by the `var_bound` call. -/
def ckNext (p : Prims) (data : Dataset) (K T : ℕ) (vp : ℚ) (n : ℕ → ℚ)
    (st1 : TState) : TState :=
  { st1 with expMeans := (ckVb p data K T vp n st1).2 }

/-- The warnings accumulated over a checkpointing iteration: the
unconditional `negJakkolaOfDerivedXi` reports, the debug-gated per-update
anomaly scan, and the bound-degradation report. -/
def ckWarnings (p : Prims) (data : Dataset) (K T : ℕ) (vp : ℚ) (n : ℕ → ℚ)
    (debug : Bool) (bounds : List ℚ) (ws : List String) (st1 : TState) :
    List String :=
  (ws ++ jakkolaWarnings p data.D K st1.means st1.varcs st1.s ++
      anomalyWarnings p data.D K T debug st1) ++
    (if bounds ≠ [] ∧ (ckVb p data K T vp n st1).1 < bounds.getLastD 0 then
      [boundDegradationMsg] else [])

/-- The early-return value of a stopping checkpoint. -/
def ckReturn (p : Prims) (data : Dataset) (K T : ℕ) (vp : ℚ) (n : ℕ → ℚ)
    (debug : Bool) (itr : ℕ) (iters : List ℕ) (bounds likes : List ℚ)
    (ws : List String) (st1 : TState) : TrainResult :=
  ⟨mkModel K T st1 vp,
    { mkQuery st1 n with expMeans := (ckVb p data K T vp n st1).2 },
    iters ++ [itr], bounds ++ [(ckVb p data K T vp n st1).1],
    likes ++ [ckLike p data K T vp n st1],
    ckWarnings p data K T vp n debug bounds ws st1⟩

/-- Boolean success test for an Except value. -/
def isOkE {ε α : Type} : Except ε α → Bool
  | .ok _ => true
  | .error _ => false

/-- Concrete primitives for witness and counterexample runs: constant
exponential/logarithm/square root, identity matrix inverse, zero
determinant and covariance, constant random source, nothing anomalous. -/
def basePrims : Prims :=
  { qexp := fun _ => 1, qlog := fun _ => 0, qsqrt := fun _ => 1,
    matInv := fun _ m => m, matDet := fun _ _ => 0,
    oasCov := fun _ _ _ => fun _ _ => 0, rand := fun _ _ => 1,
    isBad := fun _ => false, ln2pi := 0, ln2pie := 0 }

/-- Primitives whose anomaly detector flags exactly the value 11/10: in
the concrete run below this value sits on the updated `sigT` diagonal but
appears nowhere in the means, offsets or variances that the unconditional
`negJakkolaOfDerivedXi` scan examines. -/
def badPrims : Prims :=
  { basePrims with isBad := fun q => decide (q = (11 / 10 : ℚ)) }

/-- A one-document, one-term dataset with no observed words. -/
def cDataA : Dataset := ⟨1, 1, fun _ _ => 0⟩

/-- A two-topic model over one term, with unit vocabulary entries. -/
def cModelA : ModelState := ⟨2, 1, fun _ => 0, fun _ _ => 0, fun _ _ => 1, 1⟩

/-- A concrete query state (the `expMeans` buffer deliberately holds the
value 5, which no exponential of the zero means can reproduce under
`basePrims`). -/
def cQueryA : QueryState :=
  ⟨fun _ _ => 0, fun _ _ => 5, fun _ _ => 1, fun _ _ => 1, fun _ => 0,
    fun _ => 1⟩

/-- A single-iteration plan logging on every iteration and with the debug
flag off. -/
def cPlanA : TrainPlan := ⟨1, 2, 1, false, false⟩

/-- A 93-iteration plan checkpointing every 31 iterations, chosen so that
the second checkpoint falls on iteration 31 (past the floor of 30) while
only one checkpoint has been recorded before it, and so that the three
checkpoints 0, 31, 62 fit the preallocated trace arrays of the source
(`iterations // logFrequency = 3`). -/
def cPlanB : TrainPlan := ⟨93, 2, 31, false, false⟩

/-- A model whose vocabulary has two columns, mismatching `cDataA`. -/
def cModelMis : ModelState :=
  ⟨2, 2, fun _ => 0, fun _ _ => 0, fun _ _ => 1, 1⟩

/-- A zero-iteration plan. -/
def cPlanZ : TrainPlan := ⟨0, 2, 10, false, false⟩

/-- The result of the concrete one-iteration training run on
`cDataA`/`cModelA`/`cQueryA` (the error branch is unreachable since the
column counts agree). -/
def runA : TrainResult :=
  match train basePrims cDataA cModelA cQueryA cPlanA with
  | .ok r => r
  | .error _ => ⟨cModelA, cQueryA, [], [], [], []⟩

/-- The result of the concrete 93-iteration run under `cPlanB`, whose
checkpoints fall on iterations 0, 31 and 62. -/
def runB : TrainResult :=
  match train basePrims cDataA cModelA cQueryA cPlanB with
  | .ok r => r
  | .error _ => ⟨cModelA, cQueryA, [], [], [], []⟩

/-- The result of the concrete one-iteration run with the detector of
`badPrims` and the debug flag off. -/
def runBad : TrainResult :=
  match train badPrims cDataA cModelA cQueryA cPlanA with
  | .ok r => r
  | .error _ => ⟨cModelA, cQueryA, [], [], [], []⟩

/-- An empty dataset (no documents, one term column). -/
def cData0 : Dataset := ⟨0, 1, fun _ _ => 0⟩

lemma trainStep_ok (p : Prims) (data : Dataset) (K T : ℕ) (vp : ℚ)
    (n : ℕ → ℚ) (fast : Bool) (st : TState) (hT : data.T = T) :
    trainStep p data K T vp n fast st =
      .ok (trainStepOk p data K T vp n fast st) := by
  simp [trainStep, trainStepOk, sparseScalarQuotientOfDot, hT]

lemma trainStep_err (p : Prims) (data : Dataset) (K T : ℕ) (vp : ℚ)
    (n : ℕ → ℚ) (fast : Bool) (st : TState) (hT : data.T ≠ T) :
    trainStep p data K T vp n fast st = .error dimMismatchMsg := by
  simp [trainStep, sparseScalarQuotientOfDot, hT]

lemma trainLoop_succ_err (p : Prims) (data : Dataset) (K T : ℕ) (vp : ℚ)
    (n : ℕ → ℚ) (plan : TrainPlan) (r itr : ℕ) (st : TState)
    (iters : List ℕ) (bounds likes : List ℚ) (ws : List String)
    (hT : data.T ≠ T) :
    trainLoop p data K T vp n plan (r + 1) itr st iters bounds likes ws =
      .error dimMismatchMsg := by
  simp [trainLoop, trainStep_err p data K T vp n plan.fastButInaccurate st hT]

lemma trainLoop_succ_nolog (p : Prims) (data : Dataset) (K T : ℕ) (vp : ℚ)
    (n : ℕ → ℚ) (plan : TrainPlan) (r itr : ℕ) (st : TState)
    (iters : List ℕ) (bounds likes : List ℚ) (ws : List String)
    (hT : data.T = T)
    (hnolog : ¬(0 < plan.logFrequency ∧ itr % plan.logFrequency = 0)) :
    trainLoop p data K T vp n plan (r + 1) itr st iters bounds likes ws =
      trainLoop p data K T vp n plan r (itr + 1)
        (trainStepOk p data K T vp n plan.fastButInaccurate st)
        iters bounds likes
        (ws ++
          jakkolaWarnings p data.D K
            (trainStepOk p data K T vp n plan.fastButInaccurate st).means
            (trainStepOk p data K T vp n plan.fastButInaccurate st).varcs
            (trainStepOk p data K T vp n plan.fastButInaccurate st).s ++
          anomalyWarnings p data.D K T plan.debug
            (trainStepOk p data K T vp n plan.fastButInaccurate st)) := by
  simp only [trainLoop,
    trainStep_ok p data K T vp n plan.fastButInaccurate st hT]
  rw [if_neg hnolog]

lemma trainLoop_succ_log_stop (p : Prims) (data : Dataset) (K T : ℕ)
    (vp : ℚ) (n : ℕ → ℚ) (plan : TrainPlan) (r itr : ℕ) (st : TState)
    (iters : List ℕ) (bounds likes : List ℚ) (ws : List String)
    (hT : data.T = T)
    (hlog : 0 < plan.logFrequency ∧ itr % plan.logFrequency = 0)
    (hstop : ckStop p data K T vp n itr likes
      (trainStepOk p data K T vp n plan.fastButInaccurate st)) :
    trainLoop p data K T vp n plan (r + 1) itr st iters bounds likes ws =
      .ok (ckReturn p data K T vp n plan.debug itr iters bounds likes ws
        (trainStepOk p data K T vp n plan.fastButInaccurate st)) := by
  unfold ckStop ckLike at hstop
  simp only [trainLoop,
    trainStep_ok p data K T vp n plan.fastButInaccurate st hT]
  rw [if_pos hlog, if_pos hstop]
  rfl

lemma trainLoop_succ_log_cont (p : Prims) (data : Dataset) (K T : ℕ)
    (vp : ℚ) (n : ℕ → ℚ) (plan : TrainPlan) (r itr : ℕ) (st : TState)
    (iters : List ℕ) (bounds likes : List ℚ) (ws : List String)
    (hT : data.T = T)
    (hlog : 0 < plan.logFrequency ∧ itr % plan.logFrequency = 0)
    (hns : ¬ckStop p data K T vp n itr likes
      (trainStepOk p data K T vp n plan.fastButInaccurate st)) :
    trainLoop p data K T vp n plan (r + 1) itr st iters bounds likes ws =
      trainLoop p data K T vp n plan r (itr + 1)
        (ckNext p data K T vp n
          (trainStepOk p data K T vp n plan.fastButInaccurate st))
        (iters ++ [itr])
        (bounds ++ [(ckVb p data K T vp n
          (trainStepOk p data K T vp n plan.fastButInaccurate st)).1])
        (likes ++ [ckLike p data K T vp n
          (trainStepOk p data K T vp n plan.fastButInaccurate st)])
        (ckWarnings p data K T vp n plan.debug bounds ws
          (trainStepOk p data K T vp n plan.fastButInaccurate st)) := by
  unfold ckStop ckLike at hns
  simp only [trainLoop,
    trainStep_ok p data K T vp n plan.fastButInaccurate st hT]
  rw [if_pos hlog, if_neg hns]
  rfl

lemma fsum_nonneg (n : ℕ) (f : ℕ → ℚ) (h : ∀ i, 0 ≤ f i) : 0 ≤ fsum n f :=
  Finset.sum_nonneg fun i _ => h i

lemma fsum_pos (n : ℕ) (f : ℕ → ℚ) (hn : 0 < n) (h : ∀ i, 0 < f i) :
    0 < fsum n f :=
  Finset.sum_pos (fun i _ => h i)
    (Finset.nonempty_range_iff.mpr hn.ne')

lemma ssqodFun_nonneg (K : ℕ) (W X Y : ℕ → ℕ → ℚ)
    (hW : ∀ d t, 0 ≤ W d t) (hX : ∀ d k, 0 ≤ X d k)
    (hY : ∀ k t, 0 ≤ Y k t) (d t : ℕ) : 0 ≤ ssqodFun K W X Y d t := by
  unfold ssqodFun
  split
  · exact le_refl 0
  · exact div_nonneg (hW d t)
      (fsum_nonneg _ _ fun k => mul_nonneg (hX d k) (hY k t))

lemma vocabUpdate_rows (T D : ℕ) (v R E : ℕ → ℕ → ℚ) (prior : ℚ)
    (hT : 0 < T) (hv : ∀ k t, 0 ≤ v k t) (hR : ∀ d t, 0 ≤ R d t)
    (hE : ∀ d k, 0 ≤ E d k) (hp : 0 < prior) :
    (∀ k t, 0 < vocabUpdate T D v R E prior k t) ∧
      (∀ k, fsum T (fun t => vocabUpdate T D v R E prior k t) = 1) := by
  have hw : ∀ k t, 0 < v k t * (fsum D fun d => R d t * E d k) + prior :=
    fun k t =>
      add_pos_of_nonneg_of_pos
        (mul_nonneg (hv k t)
          (fsum_nonneg _ _ fun d => mul_nonneg (hR d t) (hE d k))) hp
  have hS : ∀ k,
      0 < fsum T fun t => v k t * (fsum D fun d => R d t * E d k) + prior :=
    fun k => fsum_pos _ _ hT fun t => hw k t
  constructor
  · intro k t
    exact div_pos (hw k t) (hS k)
  · intro k
    unfold vocabUpdate normalizerows_ip fsum
    rw [← Finset.sum_div]
    exact div_self (ne_of_gt (hS k))

lemma trainStep_s_eq (p : Prims) (data : Dataset) (K T : ℕ) (vp : ℚ)
    (n : ℕ → ℚ) (fast : Bool) (st st' : TState)
    (h : trainStep p data K T vp n fast st = .ok st') : st'.s = st.s := by
  by_cases hT : data.T = T
  · rw [trainStep_ok p data K T vp n fast st hT] at h
    injection h with h2
    rw [← h2]
    rfl
  · rw [trainStep_err p data K T vp n fast st hT] at h
    exact Except.noConfusion h

lemma trainStep_vocab_inv (p : Prims) (data : Dataset) (K T : ℕ) (vp : ℚ)
    (n : ℕ → ℚ) (fast : Bool) (st st' : TState)
    (hexp : ∀ x, 0 < p.qexp x) (hvp : 0 < vp)
    (hW : ∀ d t, 0 ≤ data.words d t) (hT0 : 0 < T)
    (hv : ∀ k t, 0 ≤ st.vocab k t)
    (h : trainStep p data K T vp n fast st = .ok st') :
    (∀ k t, 0 < st'.vocab k t) ∧
      (∀ k, fsum T (fun t => st'.vocab k t) = 1) := by
  by_cases hT : data.T = T
  · rw [trainStep_ok p data K T vp n fast st hT] at h
    injection h with h2
    rw [← h2]
    have hE : ∀ d k, (0 : ℚ) ≤ p.qexp (st.means d k - rowMax K (st.means d)) :=
      fun d k => le_of_lt (hexp _)
    have hR : ∀ d t, (0 : ℚ) ≤
        ssqodFun K data.words
          (fun d k => p.qexp (st.means d k - rowMax K (st.means d)))
          st.vocab d t :=
      fun d t => ssqodFun_nonneg _ _ _ _ hW hE hv d t
    exact vocabUpdate_rows T data.D st.vocab _ _ vp hT0 hv hR hE hvp
  · rw [trainStep_err p data K T vp n fast st hT] at h
    exact Except.noConfusion h

lemma trainLoop_vocab_inv (p : Prims) (data : Dataset) (K T : ℕ) (vp : ℚ)
    (n : ℕ → ℚ) (plan : TrainPlan)
    (hexp : ∀ x, 0 < p.qexp x) (hvp : 0 < vp)
    (hW : ∀ d t, 0 ≤ data.words d t) (hT0 : 0 < T) :
    ∀ (r itr : ℕ) (st : TState) (iters : List ℕ) (bounds likes : List ℚ)
      (ws : List String) (res : TrainResult),
      (∀ k t, 0 ≤ st.vocab k t) →
      (r = 0 → (∀ k t, 0 < st.vocab k t) ∧
        (∀ k, fsum T (fun t => st.vocab k t) = 1)) →
      trainLoop p data K T vp n plan r itr st iters bounds likes ws =
        .ok res →
      (∀ k t, 0 < res.model.vocab k t) ∧
        (∀ k, fsum T (fun t => res.model.vocab k t) = 1) := by
  intro r
  induction r with
  | zero =>
    intro itr st iters bounds likes ws res h0 hg hres
    simp only [trainLoop] at hres
    injection hres with h2
    rw [← h2]
    exact hg rfl
  | succ r ih =>
    intro itr st iters bounds likes ws res h0 hg hres
    cases hstep : trainStep p data K T vp n plan.fastButInaccurate st with
    | error e =>
      have hT : data.T ≠ T := by
        intro hT
        rw [trainStep_ok p data K T vp n plan.fastButInaccurate st hT]
          at hstep
        exact Except.noConfusion hstep
      rw [trainLoop_succ_err p data K T vp n plan r itr st iters bounds
        likes ws hT] at hres
      exact Except.noConfusion hres
    | ok st1 =>
      have hT : data.T = T := by
        by_contra hne
        rw [trainStep_err p data K T vp n plan.fastButInaccurate st hne]
          at hstep
        exact Except.noConfusion hstep
      have hinv := trainStep_vocab_inv p data K T vp n
        plan.fastButInaccurate st st1 hexp hvp hW hT0 h0 hstep
      have hst1 : st1 = trainStepOk p data K T vp n plan.fastButInaccurate st := by
        rw [trainStep_ok p data K T vp n plan.fastButInaccurate st hT]
          at hstep
        injection hstep with h2
        exact h2.symm
      rw [hst1] at hinv
      by_cases hlog : 0 < plan.logFrequency ∧ itr % plan.logFrequency = 0
      · by_cases hstop : ckStop p data K T vp n itr likes
          (trainStepOk p data K T vp n plan.fastButInaccurate st)
        · rw [trainLoop_succ_log_stop p data K T vp n plan r itr st iters
            bounds likes ws hT hlog hstop] at hres
          injection hres with h2
          rw [← h2]
          exact hinv
        · rw [trainLoop_succ_log_cont p data K T vp n plan r itr st iters
            bounds likes ws hT hlog hstop] at hres
          exact ih (itr + 1)
            (ckNext p data K T vp n
              (trainStepOk p data K T vp n plan.fastButInaccurate st))
            _ _ _ _ res (fun k t => le_of_lt (hinv.1 k t)) (fun _ => hinv)
            hres
      · rw [trainLoop_succ_nolog p data K T vp n plan r itr st iters bounds
          likes ws hT hlog] at hres
        exact ih (itr + 1) _ _ _ _ _ res
          (fun k t => le_of_lt (hinv.1 k t)) (fun _ => hinv) hres

lemma trainLoop_s_pres (p : Prims) (data : Dataset) (K T : ℕ) (vp : ℚ)
    (n : ℕ → ℚ) (plan : TrainPlan) :
    ∀ (r itr : ℕ) (st : TState) (iters : List ℕ) (bounds likes : List ℚ)
      (ws : List String) (res : TrainResult),
      trainLoop p data K T vp n plan r itr st iters bounds likes ws =
        .ok res →
      res.query.s = st.s := by
  intro r
  induction r with
  | zero =>
    intro itr st iters bounds likes ws res hres
    simp only [trainLoop] at hres
    injection hres with h2
    rw [← h2]
    rfl
  | succ r ih =>
    intro itr st iters bounds likes ws res hres
    cases hstep : trainStep p data K T vp n plan.fastButInaccurate st with
    | error e =>
      have hT : data.T ≠ T := by
        intro hT
        rw [trainStep_ok p data K T vp n plan.fastButInaccurate st hT]
          at hstep
        exact Except.noConfusion hstep
      rw [trainLoop_succ_err p data K T vp n plan r itr st iters bounds
        likes ws hT] at hres
      exact Except.noConfusion hres
    | ok st1 =>
      have hT : data.T = T := by
        by_contra hne
        rw [trainStep_err p data K T vp n plan.fastButInaccurate st hne]
          at hstep
        exact Except.noConfusion hstep
      have hs1 : st1.s = st.s :=
        trainStep_s_eq p data K T vp n plan.fastButInaccurate st st1 hstep
      have hst1 : st1 = trainStepOk p data K T vp n plan.fastButInaccurate st := by
        rw [trainStep_ok p data K T vp n plan.fastButInaccurate st hT]
          at hstep
        injection hstep with h2
        exact h2.symm
      rw [hst1] at hs1
      by_cases hlog : 0 < plan.logFrequency ∧ itr % plan.logFrequency = 0
      · by_cases hstop : ckStop p data K T vp n itr likes
          (trainStepOk p data K T vp n plan.fastButInaccurate st)
        · rw [trainLoop_succ_log_stop p data K T vp n plan r itr st iters
            bounds likes ws hT hlog hstop] at hres
          injection hres with h2
          rw [← h2]
          exact hs1
        · rw [trainLoop_succ_log_cont p data K T vp n plan r itr st iters
            bounds likes ws hT hlog hstop] at hres
          rw [ih (itr + 1) _ _ _ _ _ res hres]
          exact hs1
      · rw [trainLoop_succ_nolog p data K T vp n plan r itr st iters bounds
          likes ws hT hlog] at hres
        rw [ih (itr + 1) _ _ _ _ _ res hres]
        exact hs1

lemma trainStepOk_isBad (p : Prims) (b : ℚ → Bool) (data : Dataset)
    (K T : ℕ) (vp : ℚ) (n : ℕ → ℚ) (fast : Bool) (st : TState) :
    trainStepOk { p with isBad := b } data K T vp n fast st =
      trainStepOk p data K T vp n fast st := rfl

lemma ckVb_isBad (p : Prims) (b : ℚ → Bool) (data : Dataset) (K T : ℕ)
    (vp : ℚ) (n : ℕ → ℚ) (st1 : TState) :
    ckVb { p with isBad := b } data K T vp n st1 = ckVb p data K T vp n st1 :=
  rfl

lemma ckLike_isBad (p : Prims) (b : ℚ → Bool) (data : Dataset) (K T : ℕ)
    (vp : ℚ) (n : ℕ → ℚ) (st1 : TState) :
    ckLike { p with isBad := b } data K T vp n st1 =
      ckLike p data K T vp n st1 := rfl

lemma ckNext_isBad (p : Prims) (b : ℚ → Bool) (data : Dataset) (K T : ℕ)
    (vp : ℚ) (n : ℕ → ℚ) (st1 : TState) :
    ckNext { p with isBad := b } data K T vp n st1 =
      ckNext p data K T vp n st1 := rfl

lemma trainLoop_core_isBad (p : Prims) (b : ℚ → Bool) (data : Dataset)
    (K T : ℕ) (vp : ℚ) (n : ℕ → ℚ) (plan : TrainPlan) :
    ∀ (r itr : ℕ) (st : TState) (iters : List ℕ) (bounds likes : List ℚ)
      (ws ws' : List String),
      (trainLoop { p with isBad := b } data K T vp n plan r itr st iters
        bounds likes ws).map TrainResult.core =
      (trainLoop p data K T vp n plan r itr st iters bounds likes ws').map
        TrainResult.core := by
  intro r
  induction r with
  | zero => intro itr st iters bounds likes ws ws'; rfl
  | succ r ih =>
    intro itr st iters bounds likes ws ws'
    by_cases hT : data.T = T
    · by_cases hlog : 0 < plan.logFrequency ∧ itr % plan.logFrequency = 0
      · by_cases hstop : ckStop p data K T vp n itr likes
          (trainStepOk p data K T vp n plan.fastButInaccurate st)
        · have hstop' : ckStop { p with isBad := b } data K T vp n itr likes
              (trainStepOk { p with isBad := b } data K T vp n
                plan.fastButInaccurate st) := hstop
          rw [trainLoop_succ_log_stop { p with isBad := b } data K T vp n
            plan r itr st iters bounds likes ws hT hlog hstop',
            trainLoop_succ_log_stop p data K T vp n plan r itr st iters
              bounds likes ws' hT hlog hstop]
          rfl
        · have hstop' : ¬ckStop { p with isBad := b } data K T vp n itr likes
              (trainStepOk { p with isBad := b } data K T vp n
                plan.fastButInaccurate st) := hstop
          rw [trainLoop_succ_log_cont { p with isBad := b } data K T vp n
            plan r itr st iters bounds likes ws hT hlog hstop',
            trainLoop_succ_log_cont p data K T vp n plan r itr st iters
              bounds likes ws' hT hlog hstop]
          rw [trainStepOk_isBad, ckNext_isBad, ckVb_isBad, ckLike_isBad]
          exact ih (itr + 1) _ _ _ _ _ _
      · rw [trainLoop_succ_nolog { p with isBad := b } data K T vp n plan r
          itr st iters bounds likes ws hT hlog,
          trainLoop_succ_nolog p data K T vp n plan r itr st iters bounds
            likes ws' hT hlog]
        rw [trainStepOk_isBad]
        exact ih (itr + 1) _ _ _ _ _ _
    · rw [trainLoop_succ_err { p with isBad := b } data K T vp n plan r itr
        st iters bounds likes ws hT,
        trainLoop_succ_err p data K T vp n plan r itr st iters bounds likes
          ws' hT]

/-- C1: `log_likelihood` returns the sum, over exactly the non-zero
entries `(d,t)` of `dataset.words`, of
`words[d,t] * log(softmax(means[d,:]) . vocab[:,t])`, with the softmax
applied row-wise to the query state's means: the sparse evaluation equals
the dense double sum restricted to the non-zero positions of `words`. -/
theorem log_likelihood_sparse_restriction (p : Prims) (data : Dataset)
    (model : ModelState) (qs : QueryState) :
    log_likelihood p data model qs =
      ∑ dt ∈ (Finset.range data.D ×ˢ Finset.range data.T).filter
          (fun dt => data.words dt.1 dt.2 ≠ 0),
        data.words dt.1 dt.2 *
          p.qlog (fsum model.K fun k =>
            rowwise_softmax p model.K qs.means dt.1 k *
              model.vocab k dt.2) := by
  rw [Finset.sum_filter, Finset.sum_product]
  simp only [log_likelihood, sparseDataSum, sparseScalarProductOfSafeLnDot,
    fsum]
  refine Finset.sum_congr rfl fun d _ => Finset.sum_congr rfl fun t _ => ?_
  by_cases h : data.words d t = 0 <;> simp [h]

/-- C4: the variance update of the E-step (shared by `train` and `query`)
computes the reciprocal of `docLen * lxi` plus the diagonal of `isigT`,
so every entry is strictly positive whenever the document lengths are
non-negative and `lxi` and the precision diagonal are positive; moreover
the update used inside `trainStep` and `queryStep` is exactly
`varcsUpdate`. -/
theorem varcs_update_positive :
    (∀ (n : ℕ → ℚ) (lxi isigT : ℕ → ℕ → ℚ) (d k : ℕ),
        0 ≤ n d → 0 < lxi d k → 0 < isigT k k →
        0 < varcsUpdate n lxi isigT d k) ∧
    (∀ (p : Prims) (data : Dataset) (K T : ℕ) (vp : ℚ) (n : ℕ → ℚ)
        (fast : Bool) (st st' : TState),
        trainStep p data K T vp n fast st = .ok st' →
        st'.varcs = varcsUpdate n st.lxi
          (sigTUpdate p data.D K fast st.means st.varcs
            (topicMeanUpdate data.D K st.means)).2) ∧
    (∀ (p : Prims) (K : ℕ) (tm : ℕ → ℚ) (isigT S : ℕ → ℕ → ℚ) (n : ℕ → ℚ)
        (st : QLocal),
        (queryStep p K tm isigT S n st).varcs =
          varcsUpdate n st.lxi isigT) := by
  refine ⟨?_, ?_, ?_⟩
  · intro n lxi isigT d k hn hl hi
    unfold varcsUpdate
    exact one_div_pos.mpr
      (add_pos_of_nonneg_of_pos (mul_nonneg hn (le_of_lt hl)) hi)
  · intro p data K T vp n fast st st' h
    by_cases hT : data.T = T
    · rw [trainStep_ok p data K T vp n fast st hT] at h
      injection h with h2
      rw [← h2]
      rfl
    · rw [trainStep_err p data K T vp n fast st hT] at h
      exact Except.noConfusion h
  · intro p K tm isigT S n st
    rfl

/-- C4 witness: the positivity statement applied at a concrete input. -/
theorem varcs_update_positive_witness :
    0 < varcsUpdate (fun _ => 1) (fun _ _ => 1) (fun _ _ => 1) 0 0 :=
  varcs_update_positive.1 (fun _ => 1) (fun _ _ => 1) (fun _ _ => 1) 0 0
    (by norm_num) (by norm_num) (by norm_num)

/-- C5: whenever `query` returns, its first component is the passed-in
model state, unchanged (no global parameter is modified), and the
returned query state keeps the per-document lengths of the input batch;
its local parameters are the final loop iterate by construction of
`queryLoop`. -/
theorem query_model_frame (p : Prims) (data : Dataset) (model : ModelState)
    (qs : QueryState) (plan : TrainPlan) :
    (query p data model qs plan).map Prod.fst =
      (query p data model qs plan).map (fun _ => model) ∧
    (query p data model qs plan).map (fun r => r.2.docLens) =
      (query p data model qs plan).map (fun _ => qs.docLens) := by
  unfold query
  constructor <;> (split <;> rfl)

/-- C6: `var_bound` overwrites the passed-in query state's `expMeans`
buffer with the exponentiated shifted means and never restores it, so the
query state is not left unchanged: at a concrete input whose buffer holds
the value 5, the buffer holds a different value after the call. -/
theorem var_bound_overwrites_expMeans :
    (∀ (p : Prims) (data : Dataset) (model : ModelState) (qs : QueryState),
        (var_bound p data model qs).2 =
          fun d k => p.qexp (qs.means d k - rowMax model.K (qs.means d))) ∧
    (var_bound basePrims cDataA cModelA cQueryA).2 0 0 ≠
      cQueryA.expMeans 0 0 := by
  constructor
  · intro p data model qs
    rfl
  · decide

/-- C7: the diagonal truncation of `sigT` in the M-step is applied for
every value of the `fastButInaccurate` flag (the source condition is
`if True or diagonalPriorCov:`), so the update is independent of the
flag; at a concrete input with the flag off, the updated `sigT` is still
truncated to its diagonal even though the full matrix has a non-zero
off-diagonal entry, and the `la.inv` branch is never taken. -/
theorem sigT_truncation_ignores_flag :
    (∀ (p : Prims) (D K : ℕ) (fast : Bool) (means varcs : ℕ → ℕ → ℚ)
        (tm : ℕ → ℚ),
        sigTUpdate p D K fast means varcs tm =
          sigTUpdate p D K true means varcs tm) ∧
    (sigTUpdate basePrims 1 2 false (fun _ _ => 0) (fun _ _ => 1)
      (fun _ => 1)).1 0 1 = 0 ∧
    sigTFull basePrims 1 2 (fun _ _ => 0) (fun _ _ => 1) (fun _ => 1) 0 1 ≠
      0 := by
  refine ⟨?_, ?_, ?_⟩
  · intro p D K fast means varcs tm
    simp [sigTUpdate]
  · decide
  · with_unfolding_all decide

/-- C3: with positive exponentials, non-negative word counts, a positive
vocabulary prior, a non-empty vocabulary and a non-negative initial
vocabulary, every M-step vocabulary update inside `train` produces rows
summing exactly to 1 with no zero (indeed strictly positive) entry: this
holds for every single training step and for the model returned by any
successful run of at least one iteration. -/
theorem train_vocab_rows_sum_one (p : Prims) (data : Dataset)
    (model : ModelState) (qs : QueryState) (plan : TrainPlan)
    (res : TrainResult)
    (hexp : ∀ x, 0 < p.qexp x) (hvp : 0 < model.vocabPrior)
    (hW : ∀ d t, 0 ≤ data.words d t) (hT0 : 0 < model.T)
    (hv : ∀ k t, 0 ≤ model.vocab k t) (hit : 1 ≤ plan.iterations)
    (hok : train p data model qs plan = .ok res) :
    (∀ (fast : Bool) (st st' : TState), (∀ k t, 0 ≤ st.vocab k t) →
        trainStep p data model.K model.T model.vocabPrior qs.docLens fast
          st = .ok st' →
        ((∀ k, fsum model.T (fun t => st'.vocab k t) = 1) ∧
          ∀ k t, 0 < st'.vocab k t)) ∧
    (∀ k, fsum model.T (fun t => res.model.vocab k t) = 1) ∧
    (∀ k t, 0 < res.model.vocab k t) := by
  have main : (∀ k t, 0 < res.model.vocab k t) ∧
      (∀ k, fsum model.T (fun t => res.model.vocab k t) = 1) := by
    obtain ⟨r, hr⟩ : ∃ r, plan.iterations = r + 1 :=
      ⟨plan.iterations - 1, (Nat.succ_pred_eq_of_pos hit).symm⟩
    unfold train at hok
    rw [hr] at hok
    exact trainLoop_vocab_inv p data model.K model.T model.vocabPrior
      qs.docLens plan hexp hvp hW hT0 (r + 1) 0 (trainInit model qs)
      [] [] [] [] res hv (fun h => absurd h (Nat.succ_ne_zero r)) hok
  refine ⟨?_, main.2, main.1⟩
  intro fast st st' h0 hstep
  have h := trainStep_vocab_inv p data model.K model.T model.vocabPrior
    qs.docLens fast st st' hexp hvp hW hT0 h0 hstep
  exact ⟨h.2, h.1⟩

/-- C3 witness: the statement applied to a concrete one-iteration run. -/
theorem train_vocab_rows_sum_one_witness :
    fsum 1 (fun t => runA.model.vocab 0 t) = 1 ∧
      0 < runA.model.vocab 0 0 := by
  have h := train_vocab_rows_sum_one basePrims cDataA cModelA cQueryA
    cPlanA runA (fun _ => one_pos) one_pos (fun _ _ => le_refl 0)
    Nat.one_pos (fun _ _ => zero_le_one) (le_refl 1) rfl
  exact ⟨h.2.1 0, h.2.2 0 0⟩

/-- C10: inside `train` the per-iteration update never reassigns the
offset vector `s` (the closed-form update is commented out in the
source), `train` zeroes `s` before the first iteration so every
successful run returns a query state whose `s` is identically zero, while
each `query` iteration reassigns `s` from the closed-form Bouchard update
`(sum(lxi*means) + 0.25K - 0.5) / sum(lxi)` evaluated at the newly
updated `lxi` and `means`. -/
theorem train_s_zero_query_s_update :
    (∀ (p : Prims) (data : Dataset) (K T : ℕ) (vp : ℚ) (n : ℕ → ℚ)
        (fast : Bool) (st st' : TState),
        trainStep p data K T vp n fast st = .ok st' → st'.s = st.s) ∧
    (∀ (p : Prims) (data : Dataset) (model : ModelState) (qs : QueryState)
        (plan : TrainPlan) (res : TrainResult),
        train p data model qs plan = .ok res → ∀ d, res.query.s d = 0) ∧
    (∀ (p : Prims) (K : ℕ) (tm : ℕ → ℚ) (isigT S : ℕ → ℕ → ℚ) (n : ℕ → ℚ)
        (st : QLocal),
        (queryStep p K tm isigT S n st).s =
          sBouchardUpdate K (queryStep p K tm isigT S n st).lxi
            (queryStep p K tm isigT S n st).means) := by
  refine ⟨trainStep_s_eq, ?_, ?_⟩
  · intro p data model qs plan res h d
    have hs := trainLoop_s_pres p data model.K model.T model.vocabPrior
      qs.docLens plan plan.iterations 0 (trainInit model qs) [] [] [] []
      res h
    rw [hs]
    rfl
  · intro p K tm isigT S n st
    rfl

/-- C10 witness: the returned offset vector of a concrete run is zero. -/
theorem train_s_zero_query_s_update_witness : runA.query.s 0 = 0 :=
  train_s_zero_query_s_update.2.1 basePrims cDataA cModelA cQueryA cPlanA
    runA rfl 0

/-- C2 amended: at a logging checkpoint the training loop returns early
exactly under the source's rule, which beyond the iteration floor of 30
and the sub-1 perplexity improvement also requires that at least two
checkpoints have already been recorded (`bvIdx > 1`); with at most one
recorded checkpoint the loop always continues, whatever the iteration
index and the improvement. -/
theorem train_checkpoint_stop_rule (p : Prims) (data : Dataset) (K T : ℕ)
    (vp : ℚ) (n : ℕ → ℚ) (plan : TrainPlan) (r itr : ℕ) (st : TState)
    (iters : List ℕ) (bounds likes : List ℚ) (ws : List String)
    (hT : data.T = T)
    (hlog : 0 < plan.logFrequency ∧ itr % plan.logFrequency = 0) :
    (ckStop p data K T vp n itr likes
        (trainStepOk p data K T vp n plan.fastButInaccurate st) →
      trainLoop p data K T vp n plan (r + 1) itr st iters bounds likes ws =
        .ok (ckReturn p data K T vp n plan.debug itr iters bounds likes ws
          (trainStepOk p data K T vp n plan.fastButInaccurate st))) ∧
    (likes.length ≤ 1 →
      trainLoop p data K T vp n plan (r + 1) itr st iters bounds likes ws =
        trainLoop p data K T vp n plan r (itr + 1)
          (ckNext p data K T vp n
            (trainStepOk p data K T vp n plan.fastButInaccurate st))
          (iters ++ [itr])
          (bounds ++ [(ckVb p data K T vp n
            (trainStepOk p data K T vp n plan.fastButInaccurate st)).1])
          (likes ++ [ckLike p data K T vp n
            (trainStepOk p data K T vp n plan.fastButInaccurate st)])
          (ckWarnings p data K T vp n plan.debug bounds ws
            (trainStepOk p data K T vp n plan.fastButInaccurate st))) := by
  constructor
  · exact trainLoop_succ_log_stop p data K T vp n plan r itr st iters
      bounds likes ws hT hlog
  · intro hle
    exact trainLoop_succ_log_cont p data K T vp n plan r itr st iters
      bounds likes ws hT hlog
      (fun hstop => absurd hstop.1 (not_lt.mpr hle))

/-- C2 witness: the stopping half of the rule applied at a concrete
checkpoint on iteration 31 with two previously recorded checkpoints. -/
theorem train_checkpoint_stop_rule_witness :
    trainLoop basePrims cDataA 2 1 1 cQueryA.docLens cPlanB 1 31
        (trainInit cModelA cQueryA) [0] [0, 0] [0, 0] [] =
      .ok (ckReturn basePrims cDataA 2 1 1 cQueryA.docLens cPlanB.debug 31
        [0] [0, 0] [0, 0] []
        (trainStepOk basePrims cDataA 2 1 1 cQueryA.docLens
          cPlanB.fastButInaccurate (trainInit cModelA cQueryA))) :=
  (train_checkpoint_stop_rule basePrims cDataA 2 1 1 cQueryA.docLens
      cPlanB 0 31 (trainInit cModelA cQueryA) [0] [0, 0] [0, 0] [] rfl
      (by decide)).1
    ⟨by decide, by decide, by with_unfolding_all decide⟩

/-- C2 counterexample: a concrete 93-iteration run checkpointing every 31
iterations.  Under `basePrims` every perplexity equals 1, so the
improvement between any two checkpoints is 0, below the threshold of 1;
checkpoint 31 is past the floor of 30, yet the run does not stop there:
it continues to the checkpoint on iteration 62 (three recorded
checkpoints, `[0, 31, 62]`), because only one checkpoint had been
recorded when iteration 31 was examined. -/
theorem train_stop_skipped_counterexample :
    runB.iters = [0, 31, 62] ∧ 30 ≤ 31 ∧
    perplexity_from_like basePrims (runB.likes.getD 0 0)
        (fsum cDataA.D cQueryA.docLens) -
      perplexity_from_like basePrims (runB.likes.getD 1 0)
        (fsum cDataA.D cQueryA.docLens) < 1 := by
  refine ⟨by with_unfolding_all rfl, by decide, by with_unfolding_all decide⟩

/-- C8 amended: the diagnostic machinery of `train` never halts the loop,
and its reporting splits into an unconditional and a debug-gated path:
(a) the Python-visible result (model, query state, traces) is unchanged
under any change of the NaN/Inf anomaly detector, whose hits only reach
the warning channel; (b) a bound decrease between checkpoints appends
the degradation report to the diagnostic channel while the loop
continues with the next iteration whenever the perplexity stopping rule
does not fire; (c) on every non-checkpoint iteration the loop likewise
just continues, and anomalies in the updated means, offsets or variances
are always reported through the unconditional `negJakkolaOfDerivedXi`
scan, whatever the debug flag (anomalies in `sigT`, `vocab` and `lxi`
are reported only by the debug-gated scan). -/
theorem train_reports_but_never_halts :
    (∀ (p : Prims) (b : ℚ → Bool) (data : Dataset) (model : ModelState)
        (qs : QueryState) (plan : TrainPlan),
        (train { p with isBad := b } data model qs plan).map
            TrainResult.core =
          (train p data model qs plan).map TrainResult.core) ∧
    (∀ (p : Prims) (data : Dataset) (K T : ℕ) (vp : ℚ) (n : ℕ → ℚ)
        (plan : TrainPlan) (r itr : ℕ) (st : TState) (iters : List ℕ)
        (bounds likes : List ℚ) (ws : List String),
        data.T = T →
        (0 < plan.logFrequency ∧ itr % plan.logFrequency = 0) →
        bounds ≠ [] →
        (ckVb p data K T vp n
            (trainStepOk p data K T vp n plan.fastButInaccurate st)).1 <
          bounds.getLastD 0 →
        ¬ckStop p data K T vp n itr likes
          (trainStepOk p data K T vp n plan.fastButInaccurate st) →
        (trainLoop p data K T vp n plan (r + 1) itr st iters bounds likes
            ws =
          trainLoop p data K T vp n plan r (itr + 1)
            (ckNext p data K T vp n
              (trainStepOk p data K T vp n plan.fastButInaccurate st))
            (iters ++ [itr])
            (bounds ++ [(ckVb p data K T vp n
              (trainStepOk p data K T vp n plan.fastButInaccurate st)).1])
            (likes ++ [ckLike p data K T vp n
              (trainStepOk p data K T vp n plan.fastButInaccurate st)])
            (ckWarnings p data K T vp n plan.debug bounds ws
              (trainStepOk p data K T vp n plan.fastButInaccurate st))) ∧
        boundDegradationMsg ∈ ckWarnings p data K T vp n plan.debug bounds
          ws (trainStepOk p data K T vp n plan.fastButInaccurate st)) ∧
    (∀ (p : Prims) (data : Dataset) (K T : ℕ) (vp : ℚ) (n : ℕ → ℚ)
        (plan : TrainPlan) (r itr : ℕ) (st : TState) (iters : List ℕ)
        (bounds likes : List ℚ) (ws : List String),
        data.T = T →
        ¬(0 < plan.logFrequency ∧ itr % plan.logFrequency = 0) →
        (trainLoop p data K T vp n plan (r + 1) itr st iters bounds likes
            ws =
          trainLoop p data K T vp n plan r (itr + 1)
            (trainStepOk p data K T vp n plan.fastButInaccurate st)
            iters bounds likes
            (ws ++
              jakkolaWarnings p data.D K
                (trainStepOk p data K T vp n plan.fastButInaccurate
                  st).means
                (trainStepOk p data K T vp n plan.fastButInaccurate
                  st).varcs
                (trainStepOk p data K T vp n plan.fastButInaccurate st).s ++
              anomalyWarnings p data.D K T plan.debug
                (trainStepOk p data K T vp n plan.fastButInaccurate st))) ∧
        (anyBad2 p data.D K
            (trainStepOk p data K T vp n plan.fastButInaccurate st).means =
              true →
          meansAnomalyMsg ∈ ws ++
            jakkolaWarnings p data.D K
              (trainStepOk p data K T vp n plan.fastButInaccurate st).means
              (trainStepOk p data K T vp n plan.fastButInaccurate st).varcs
              (trainStepOk p data K T vp n plan.fastButInaccurate st).s ++
            anomalyWarnings p data.D K T plan.debug
              (trainStepOk p data K T vp n plan.fastButInaccurate st)) ∧
        (anyBad1 p data.D
            (trainStepOk p data K T vp n plan.fastButInaccurate st).s =
              true →
          sAnomalyMsg ∈ ws ++
            jakkolaWarnings p data.D K
              (trainStepOk p data K T vp n plan.fastButInaccurate st).means
              (trainStepOk p data K T vp n plan.fastButInaccurate st).varcs
              (trainStepOk p data K T vp n plan.fastButInaccurate st).s ++
            anomalyWarnings p data.D K T plan.debug
              (trainStepOk p data K T vp n plan.fastButInaccurate st)) ∧
        (anyBad2 p data.D K
            (trainStepOk p data K T vp n plan.fastButInaccurate st).varcs =
              true →
          varcsAnomalyMsg ∈ ws ++
            jakkolaWarnings p data.D K
              (trainStepOk p data K T vp n plan.fastButInaccurate st).means
              (trainStepOk p data K T vp n plan.fastButInaccurate st).varcs
              (trainStepOk p data K T vp n plan.fastButInaccurate st).s ++
            anomalyWarnings p data.D K T plan.debug
              (trainStepOk p data K T vp n plan.fastButInaccurate st))) := by
  refine ⟨?_, ?_, ?_⟩
  · intro p b data model qs plan
    exact trainLoop_core_isBad p b data model.K model.T model.vocabPrior
      qs.docLens plan plan.iterations 0 (trainInit model qs) [] [] [] [] []
  · intro p data K T vp n plan r itr st iters bounds likes ws hT hlog hne
      hlt hns
    refine ⟨trainLoop_succ_log_cont p data K T vp n plan r itr st iters
      bounds likes ws hT hlog hns, ?_⟩
    unfold ckWarnings
    rw [if_pos ⟨hne, hlt⟩]
    exact List.mem_append_right _ (List.mem_singleton.mpr rfl)
  · intro p data K T vp n plan r itr st iters bounds likes ws hT hnolog
    refine ⟨trainLoop_succ_nolog p data K T vp n plan r itr st iters
      bounds likes ws hT hnolog, ?_, ?_, ?_⟩
    · intro hA
      simp [jakkolaWarnings, hA, List.mem_append]
    · intro hA
      simp [jakkolaWarnings, hA, List.mem_append]
    · intro hA
      simp [jakkolaWarnings, hA, List.mem_append]

/-- C8 witness: the degradation half applied at a concrete checkpoint
whose previously recorded bound exceeds the current one. -/
theorem train_reports_but_never_halts_witness :
    boundDegradationMsg ∈ ckWarnings basePrims cData0 2 1 1
      cQueryA.docLens cPlanB.debug [1] []
      (trainStepOk basePrims cData0 2 1 1 cQueryA.docLens
        cPlanB.fastButInaccurate (trainInit cModelA cQueryA)) :=
  (train_reports_but_never_halts.2.1 basePrims cData0 2 1 1
      cQueryA.docLens cPlanB 0 0 (trainInit cModelA cQueryA) [] [1] [] []
      rfl (by decide) (by decide) (by with_unfolding_all decide)
      (fun hs => absurd hs.1 (by decide))).2

/-- C8 counterexample: in a concrete run with the debug flag off, the
anomaly detector flags a value that the updated `sigT` carries on its
diagonal while no entry of the means, offsets or variances scanned by
`negJakkolaOfDerivedXi` is flagged; the diagnostic channel of the run
stays empty, so it is not true that a NaN/Inf appearing in any
intermediate matrix is detected and reported during every training run:
anomalies in `sigT` (likewise `vocab` and `lxi`) are only scanned by the
debug-gated path. -/
theorem train_nan_not_reported_counterexample :
    runBad.warnings = [] ∧
      badPrims.isBad (runBad.model.sigT 0 0) = true ∧
      cPlanA.debug = false := by
  refine ⟨by with_unfolding_all rfl, by with_unfolding_all rfl, rfl⟩

/-- C9 amended: `newQueryState` rejects a column-count mismatch between
the document-term matrix and the vocabulary before building any state,
but `train` performs no dimension check of its own before iterating: with
zero iterations it returns normally even on mismatched input, and with at
least one iteration the mismatch only surfaces as the error raised by the
first iteration's sparse quotient primitive. -/
theorem dimension_mismatch_handling :
    (∀ (p : Prims) (data : Dataset) (model : ModelState),
        data.T ≠ model.T →
        newQueryState p data model = .error dimMismatchQSMsg) ∧
    (∀ (p : Prims) (data : Dataset) (model : ModelState) (qs : QueryState)
        (plan : TrainPlan), plan.iterations = 0 →
        train p data model qs plan =
          .ok ⟨mkModel model.K model.T (trainInit model qs)
              model.vocabPrior,
            mkQuery (trainInit model qs) qs.docLens, [], [], [], []⟩) ∧
    (∀ (p : Prims) (data : Dataset) (model : ModelState) (qs : QueryState)
        (plan : TrainPlan), data.T ≠ model.T → 0 < plan.iterations →
        train p data model qs plan = .error dimMismatchMsg) := by
  refine ⟨?_, ?_, ?_⟩
  · intro p data model hne
    unfold newQueryState
    rw [if_neg hne]
  · intro p data model qs plan h0
    unfold train
    rw [h0]
    rfl
  · intro p data model qs plan hne hpos
    obtain ⟨r, hr⟩ : ∃ r, plan.iterations = r + 1 :=
      ⟨plan.iterations - 1, (Nat.succ_pred_eq_of_pos hpos).symm⟩
    unfold train
    rw [hr]
    exact trainLoop_succ_err p data model.K model.T model.vocabPrior
      qs.docLens plan r 0 (trainInit model qs) [] [] [] [] hne

/-- C9 witness: the three parts applied to a concrete mismatched pair
(one-column dataset, two-column vocabulary). -/
theorem dimension_mismatch_handling_witness :
    newQueryState basePrims cDataA cModelMis = .error dimMismatchQSMsg ∧
    train basePrims cDataA cModelMis cQueryA cPlanZ =
      .ok ⟨mkModel cModelMis.K cModelMis.T (trainInit cModelMis cQueryA)
          cModelMis.vocabPrior,
        mkQuery (trainInit cModelMis cQueryA) cQueryA.docLens,
        [], [], [], []⟩ ∧
    train basePrims cDataA cModelMis cQueryA cPlanA =
      .error dimMismatchMsg :=
  ⟨dimension_mismatch_handling.1 basePrims cDataA cModelMis (by decide),
    dimension_mismatch_handling.2.1 basePrims cDataA cModelMis cQueryA
      cPlanZ rfl,
    dimension_mismatch_handling.2.2 basePrims cDataA cModelMis cQueryA
      cPlanA (by decide) (by decide)⟩

/-- C9 counterexample: with a dataset whose column count differs from the
vocabulary's, `train` run for zero iterations returns successfully
instead of failing with a dimension-mismatch error: `train` has no
check that fires before the iteration loop. -/
theorem train_no_upfront_dimension_check_counterexample :
    cDataA.T ≠ cModelMis.T ∧
      isOkE (train basePrims cDataA cModelMis cQueryA cPlanZ) = true :=
  ⟨by decide, rfl⟩

end CTM
